import Mathlib

/-!
Shallow embedding of `src/python/auto_boat_guide_sys/utilities/Quaternions.py`
over the real numbers, together with proofs checking the natural-language
specification of the module against it.

Quaternions are 4x1 numpy column arrays in the source; here they are a
structure with four real fields `q0 q1 q2 q3` (row `i` of the source array is
field `qi`).  3-vectors (3x1 arrays) become `Vec3`, 3x3 matrices become `Mat3`
with fields `rij` for row `i`, column `j`.

`np.arcsin` does not raise on an argument outside `[-1, 1]`: it returns NaN
(with only a `RuntimeWarning`).  The reals have no NaN, so the embedding of
`np.arcsin` returns `Option ℝ`, with `none` standing for the NaN result and
`some x` for an ordinary real result.  `np.arctan2` is total on real inputs
and is embedded as the usual four-quadrant arctangent.
-/

noncomputable section

namespace Quaternions

open Real

/-- A quaternion, the 4x1 column array of the source: scalar part `q0`,
vector part `(q1, q2, q3)`. -/
@[ext]
structure Quat where
  q0 : ℝ
  q1 : ℝ
  q2 : ℝ
  q3 : ℝ


/-- A 3-vector, the 3x1 column array of the source. -/
@[ext]
structure Vec3 where
  x : ℝ
  y : ℝ
  z : ℝ


/-- A 3x3 real matrix, `rij` is the entry at row `i`, column `j`. -/
@[ext]
structure Mat3 where
  r00 : ℝ
  r01 : ℝ
  r02 : ℝ
  r10 : ℝ
  r11 : ℝ
  r12 : ℝ
  r20 : ℝ
  r21 : ℝ
  r22 : ℝ


/-- Embedding of `np.arctan2 y x`: the four-quadrant arctangent.  On real
(non-NaN, unsigned-zero) inputs numpy returns `arctan (y/x)` shifted by `±π`
when `x < 0`, and the axis values `±π/2` and `0` when `x = 0`. -/
def arctan2 (y x : ℝ) : ℝ :=
  if 0 < x then arctan (y / x)
  else if x < 0 then
    (if 0 ≤ y then arctan (y / x) + π else arctan (y / x) - π)
  else
    (if 0 < y then π / 2 else if y < 0 then -(π / 2) else 0)

/-- Embedding of `np.arcsin`: `none` models the NaN that numpy returns (with
only a `RuntimeWarning`, no exception) when the argument falls outside
`[-1, 1]`; inside the domain it is the real arcsine. -/
def npArcsin (x : ℝ) : Option ℝ :=
  if -1 ≤ x ∧ x ≤ 1 then some (arcsin x) else none

/-- `setQuaternionEulerAngles(psi, theta, phi)`, lines 14-41 of the source:
the yaw-pitch-roll half-angle closed form. -/
def setQuaternionEulerAngles (psi theta phi : ℝ) : Quat :=
  let cPsi2 := cos (psi / 2)
  let cTheta2 := cos (theta / 2)
  let cPhi2 := cos (phi / 2)
  let sPsi2 := sin (psi / 2)
  let sTheta2 := sin (theta / 2)
  let sPhi2 := sin (phi / 2)
  { q0 := cPsi2 * cTheta2 * cPhi2 + sPsi2 * sTheta2 * sPhi2
    q1 := cPsi2 * cTheta2 * sPhi2 - sPsi2 * sTheta2 * cPhi2
    q2 := cPsi2 * sTheta2 * cPhi2 + sPsi2 * cTheta2 * sPhi2
    q3 := sPsi2 * cTheta2 * cPhi2 - cPsi2 * sTheta2 * sPhi2 }

/-- `getQuaternionComplexConjugate(q)`, lines 44-56 of the source. -/
def getQuaternionComplexConjugate (q : Quat) : Quat :=
  { q0 := q.q0, q1 := -q.q1, q2 := -q.q2, q3 := -q.q3 }

/-- `multiplyQuaternions(q, p)`, lines 59-78 of the source: the 4x4 matrix
`pMat` built from `p` (rows `[p0,-p1,-p2,-p3]`, `[p1,p0,p3,-p2]`,
`[p2,-p3,p0,p1]`, `[p3,p2,-p1,p0]`) applied to the column `q`. -/
def multiplyQuaternions (q p : Quat) : Quat :=
  { q0 := p.q0 * q.q0 - p.q1 * q.q1 - p.q2 * q.q2 - p.q3 * q.q3
    q1 := p.q1 * q.q0 + p.q0 * q.q1 + p.q3 * q.q2 - p.q2 * q.q3
    q2 := p.q2 * q.q0 - p.q3 * q.q1 + p.q0 * q.q2 + p.q1 * q.q3
    q3 := p.q3 * q.q0 + p.q2 * q.q1 - p.q1 * q.q2 + p.q0 * q.q3 }

/-- `rotateVectorWithQuaternion(v, psi, theta, phi)`, lines 81-102 of the
source: build `q` from the Euler angles, embed `v` as the pure quaternion
`vPure = (0, vx, vy, vz)`, form `p = multiplyQuaternions(qConj, vPure)` and
`vNew = multiplyQuaternions(p, q)`, and return rows 1..3 of `vNew`. -/
def rotateVectorWithQuaternion (v : Vec3) (psi theta phi : ℝ) : Vec3 :=
  let q := setQuaternionEulerAngles psi theta phi
  let vPure : Quat := { q0 := 0, q1 := v.x, q2 := v.y, q3 := v.z }
  let qConj := getQuaternionComplexConjugate q
  let p := multiplyQuaternions qConj vPure
  let vNew := multiplyQuaternions p q
  { x := vNew.q1, y := vNew.q2, z := vNew.q3 }

/-- The argument the source passes to `np.arcsin` on line 115:
`-(2*q1*q3 - 2*q0*q2)`. -/
def asinArg (q : Quat) : ℝ :=
  -(2 * q.q1 * q.q3 - 2 * q.q0 * q.q2)

/-- `quaternionToEulerAngles(q)`, lines 105-120 of the source: returns the
triple `(phi, theta, psi)`.  `theta` is `Option ℝ` because `np.arcsin`
produces NaN (here `none`) outside `[-1, 1]`; `phi` and `psi` come from the
total `np.arctan2`. -/
def quaternionToEulerAngles (q : Quat) : ℝ × Option ℝ × ℝ :=
  let phi := arctan2 (2 * q.q2 * q.q3 + 2 * q.q0 * q.q1)
    (2 * q.q0 * q.q0 + 2 * q.q3 * q.q3 - 1)
  let theta := npArcsin (asinArg q)
  let psi := arctan2 (2 * q.q1 * q.q2 + 2 * q.q0 * q.q3)
    (2 * q.q0 * q.q0 - 1 + 2 * q.q1 * q.q1)
  (phi, theta, psi)

/-- `quaternionToDCM(q)`, lines 122-148 of the source. -/
def quaternionToDCM (q : Quat) : Mat3 :=
  { r00 := 2 * q.q0 * q.q0 - 1 + 2 * q.q1 * q.q1
    r01 := 2 * q.q1 * q.q2 + 2 * q.q0 * q.q3
    r02 := 2 * q.q1 * q.q3 - 2 * q.q0 * q.q2
    r10 := 2 * q.q1 * q.q2 - 2 * q.q0 * q.q3
    r11 := 2 * q.q0 * q.q0 - 1 + 2 * q.q2 * q.q2
    r12 := 2 * q.q2 * q.q3 + 2 * q.q0 * q.q1
    r20 := 2 * q.q1 * q.q3 + 2 * q.q0 * q.q2
    r21 := 2 * q.q2 * q.q3 - 2 * q.q0 * q.q1
    r22 := 2 * q.q0 * q.q0 - 1 + 2 * q.q3 * q.q3 }

/-- Squared Euclidean norm of a quaternion. -/
def quatNormSq (q : Quat) : ℝ :=
  q.q0 ^ 2 + q.q1 ^ 2 + q.q2 ^ 2 + q.q3 ^ 2

/-- Squared Euclidean norm of a 3-vector. -/
def vnormSq (v : Vec3) : ℝ :=
  v.x ^ 2 + v.y ^ 2 + v.z ^ 2

/-- Euclidean norm of a 3-vector. -/
def vnorm (v : Vec3) : ℝ :=
  Real.sqrt (vnormSq v)

/-- Matrix transpose. -/
def mat3Transpose (m : Mat3) : Mat3 :=
  { r00 := m.r00, r01 := m.r10, r02 := m.r20
    r10 := m.r01, r11 := m.r11, r12 := m.r21
    r20 := m.r02, r21 := m.r12, r22 := m.r22 }

/-- Matrix product. -/
def mat3Mul (a b : Mat3) : Mat3 :=
  { r00 := a.r00 * b.r00 + a.r01 * b.r10 + a.r02 * b.r20
    r01 := a.r00 * b.r01 + a.r01 * b.r11 + a.r02 * b.r21
    r02 := a.r00 * b.r02 + a.r01 * b.r12 + a.r02 * b.r22
    r10 := a.r10 * b.r00 + a.r11 * b.r10 + a.r12 * b.r20
    r11 := a.r10 * b.r01 + a.r11 * b.r11 + a.r12 * b.r21
    r12 := a.r10 * b.r02 + a.r11 * b.r12 + a.r12 * b.r22
    r20 := a.r20 * b.r00 + a.r21 * b.r10 + a.r22 * b.r20
    r21 := a.r20 * b.r01 + a.r21 * b.r11 + a.r22 * b.r21
    r22 := a.r20 * b.r02 + a.r21 * b.r12 + a.r22 * b.r22 }

/-- The 3x3 identity matrix. -/
def mat3Id : Mat3 :=
  { r00 := 1, r01 := 0, r02 := 0
    r10 := 0, r11 := 1, r12 := 0
    r20 := 0, r21 := 0, r22 := 1 }

/-- Determinant of a 3x3 matrix (Leibniz expansion). -/
def det3 (m : Mat3) : ℝ :=
  m.r00 * (m.r11 * m.r22 - m.r12 * m.r21)
    - m.r01 * (m.r10 * m.r22 - m.r12 * m.r20)
    + m.r02 * (m.r10 * m.r21 - m.r11 * m.r20)

/-- Matrix-vector product. -/
def mat3ApplyVec (m : Mat3) (v : Vec3) : Vec3 :=
  { x := m.r00 * v.x + m.r01 * v.y + m.r02 * v.z
    y := m.r10 * v.x + m.r11 * v.y + m.r12 * v.z
    z := m.r20 * v.x + m.r21 * v.y + m.r22 * v.z }

/-- Modelled from the spec sentence of claim C4: the Hamilton product of two
quaternions `a` and `b`, spelled exactly as the claim spells it for the pair
`(p, q)` with `a` in the role of `p` and `b` in the role of `q`: scalar part
`a0*b0 - a1*b1 - a2*b2 - a3*b3`, vector part
`a0*(b1,b2,b3) + b0*(a1,a2,a3) + (a1,a2,a3) x (b1,b2,b3)`. -/
def hamiltonProductSpec (a b : Quat) : Quat :=
  { q0 := a.q0 * b.q0 - a.q1 * b.q1 - a.q2 * b.q2 - a.q3 * b.q3
    q1 := a.q0 * b.q1 + b.q0 * a.q1 + (a.q2 * b.q3 - a.q3 * b.q2)
    q2 := a.q0 * b.q2 + b.q0 * a.q2 + (a.q3 * b.q1 - a.q1 * b.q3)
    q3 := a.q0 * b.q3 + b.q0 * a.q3 + (a.q1 * b.q2 - a.q2 * b.q1) }

/-- Modelled from the spec sentence of claim C4: the 4x4 left-multiplication
matrix `P(p)` with rows `[p0,-p1,-p2,-p3]`, `[p1,p0,p3,-p2]`,
`[p2,-p3,p0,p1]`, `[p3,p2,-p1,p0]`, applied to the column `q`. -/
def leftMatrixApplySpec (q p : Quat) : Quat :=
  { q0 := p.q0 * q.q0 + (-p.q1) * q.q1 + (-p.q2) * q.q2 + (-p.q3) * q.q3
    q1 := p.q1 * q.q0 + p.q0 * q.q1 + p.q3 * q.q2 + (-p.q2) * q.q3
    q2 := p.q2 * q.q0 + (-p.q3) * q.q1 + p.q0 * q.q2 + p.q1 * q.q3
    q3 := p.q3 * q.q0 + p.q2 * q.q1 + (-p.q1) * q.q2 + p.q0 * q.q3 }

end Quaternions

/-! ### Half-angle and product identities for the Euler-angle quaternion -/

namespace Quaternions

open Real

lemma sin_half_expand (x : ℝ) : sin x = 2 * sin (x / 2) * cos (x / 2) := by
  have h := sin_two_mul (x / 2)
  rw [show 2 * (x / 2) = x from by ring] at h
  exact h

lemma cos_half_expand (x : ℝ) : cos x = 2 * cos (x / 2) ^ 2 - 1 := by
  have h := cos_two_mul (x / 2)
  rw [show 2 * (x / 2) = x from by ring] at h
  exact h

/-- Entry identity: the numerator the source feeds to `arctan2` for `phi`
equals `sin phi * cos theta` when the quaternion comes from Euler angles. -/
lemma entry_phi_num (psi theta phi : ℝ) :
    2 * (setQuaternionEulerAngles psi theta phi).q2 * (setQuaternionEulerAngles psi theta phi).q3
      + 2 * (setQuaternionEulerAngles psi theta phi).q0 * (setQuaternionEulerAngles psi theta phi).q1
      = sin phi * cos theta := by
  have hp := sin_sq_add_cos_sq (psi / 2)
  have ht := sin_sq_add_cos_sq (theta / 2)
  simp only [setQuaternionEulerAngles]
  rw [sin_half_expand phi, cos_half_expand theta]
  linear_combination (2 * cos (phi/2) * sin (phi/2) * (cos (theta/2)^2 - sin (theta/2)^2)) * hp
    - (2 * cos (phi/2) * sin (phi/2)) * ht

/-- Entry identity: the denominator the source feeds to `arctan2` for `phi`
equals `cos phi * cos theta`. -/
lemma entry_phi_den (psi theta phi : ℝ) :
    2 * (setQuaternionEulerAngles psi theta phi).q0 * (setQuaternionEulerAngles psi theta phi).q0
      + 2 * (setQuaternionEulerAngles psi theta phi).q3 * (setQuaternionEulerAngles psi theta phi).q3
      - 1 = cos phi * cos theta := by
  have hp := sin_sq_add_cos_sq (psi / 2)
  have ht := sin_sq_add_cos_sq (theta / 2)
  have hf := sin_sq_add_cos_sq (phi / 2)
  simp only [setQuaternionEulerAngles]
  rw [cos_half_expand phi, cos_half_expand theta]
  linear_combination (2 * (cos (theta/2)^2 * cos (phi/2)^2 + sin (theta/2)^2 * sin (phi/2)^2)) * hp
    + (2 * sin (phi/2)^2) * ht + (2 - 2 * cos (theta/2)^2) * hf

/-- Entry identity: the argument the source feeds to `np.arcsin` equals
`sin theta`. -/
lemma entry_theta (psi theta phi : ℝ) :
    asinArg (setQuaternionEulerAngles psi theta phi) = sin theta := by
  have hp := sin_sq_add_cos_sq (psi / 2)
  have hf := sin_sq_add_cos_sq (phi / 2)
  simp only [setQuaternionEulerAngles, asinArg]
  rw [sin_half_expand theta]
  linear_combination (2 * cos (theta/2) * sin (theta/2) * (cos (phi/2)^2 + sin (phi/2)^2)) * hp
    + (2 * cos (theta/2) * sin (theta/2)) * hf

/-- Entry identity: the numerator the source feeds to `arctan2` for `psi`
equals `cos theta * sin psi`. -/
lemma entry_psi_num (psi theta phi : ℝ) :
    2 * (setQuaternionEulerAngles psi theta phi).q1 * (setQuaternionEulerAngles psi theta phi).q2
      + 2 * (setQuaternionEulerAngles psi theta phi).q0 * (setQuaternionEulerAngles psi theta phi).q3
      = cos theta * sin psi := by
  have ht := sin_sq_add_cos_sq (theta / 2)
  have hf := sin_sq_add_cos_sq (phi / 2)
  simp only [setQuaternionEulerAngles]
  rw [cos_half_expand theta, sin_half_expand psi]
  linear_combination (-(2 * cos (psi/2) * sin (psi/2))) * ht
    + (2 * cos (psi/2) * sin (psi/2) * (cos (theta/2)^2 - sin (theta/2)^2)) * hf

/-- Entry identity: the denominator the source feeds to `arctan2` for `psi`
equals `cos theta * cos psi`. -/
lemma entry_psi_den (psi theta phi : ℝ) :
    2 * (setQuaternionEulerAngles psi theta phi).q0 * (setQuaternionEulerAngles psi theta phi).q0
      - 1 + 2 * (setQuaternionEulerAngles psi theta phi).q1 * (setQuaternionEulerAngles psi theta phi).q1
      = cos theta * cos psi := by
  have hp := sin_sq_add_cos_sq (psi / 2)
  have ht := sin_sq_add_cos_sq (theta / 2)
  have hf := sin_sq_add_cos_sq (phi / 2)
  simp only [setQuaternionEulerAngles]
  rw [cos_half_expand theta, cos_half_expand psi]
  linear_combination (2 - 2 * cos (theta/2)^2) * hp + (2 * sin (psi/2)^2) * ht
    + (2 * (cos (psi/2)^2 * cos (theta/2)^2 + sin (psi/2)^2 * sin (theta/2)^2)) * hf

/-- The quaternion built from any Euler angles is unit-norm. -/
lemma quatNormSq_set (psi theta phi : ℝ) :
    quatNormSq (setQuaternionEulerAngles psi theta phi) = 1 := by
  have hp := sin_sq_add_cos_sq (psi / 2)
  have ht := sin_sq_add_cos_sq (theta / 2)
  have hf := sin_sq_add_cos_sq (phi / 2)
  simp only [setQuaternionEulerAngles, quatNormSq]
  linear_combination ((cos (theta/2)^2 + sin (theta/2)^2) * (cos (phi/2)^2 + sin (phi/2)^2)) * hp
    + (cos (phi/2)^2 + sin (phi/2)^2) * ht + hf

/-- The `0 < x` branch of `arctan2` inverts `sin`/`cos` scaled by any common
positive factor. -/
lemma arctan2_sin_cos_mul (x c : ℝ) (hx1 : -(π / 2) < x) (hx2 : x < π / 2)
    (hc : 0 < c) : arctan2 (sin x * c) (cos x * c) = x := by
  have hcos : 0 < cos x := cos_pos_of_mem_Ioo ⟨hx1, hx2⟩
  have hden : 0 < cos x * c := mul_pos hcos hc
  rw [arctan2, if_pos hden]
  have hq : sin x * c / (cos x * c) = tan x := by
    rw [tan_eq_sin_div_cos]
    field_simp
    ring
  rw [hq, arctan_tan hx1 hx2]

end Quaternions

namespace Quaternions

open Real

/-- C1: for every Euler triple `(psi, theta, phi)` with each angle in the
open interval `(-pi/2, pi/2)`, composing `setQuaternionEulerAngles` with
`quaternionToEulerAngles` returns the original triple in the order
`(phi, theta, psi)` (roll, pitch, yaw), the reverse of the input order.
The pitch comes back as `some theta`: in-domain, so `np.arcsin` returns an
ordinary real. -/
theorem euler_roundtrip (psi theta phi : ℝ)
    (hpsi : |psi| < π / 2) (htheta : |theta| < π / 2) (hphi : |phi| < π / 2) :
    quaternionToEulerAngles (setQuaternionEulerAngles psi theta phi)
      = (phi, some theta, psi) := by
  obtain ⟨hp1, hp2⟩ := abs_lt.mp hpsi
  obtain ⟨ht1, ht2⟩ := abs_lt.mp htheta
  obtain ⟨hf1, hf2⟩ := abs_lt.mp hphi
  have hct : 0 < cos theta := cos_pos_of_mem_Ioo ⟨ht1, ht2⟩
  simp only [quaternionToEulerAngles, Prod.mk.injEq]
  refine ⟨?_, ?_, ?_⟩
  · rw [entry_phi_num psi theta phi, entry_phi_den psi theta phi]
    exact arctan2_sin_cos_mul phi (cos theta) hf1 hf2 hct
  · rw [entry_theta psi theta phi, npArcsin,
      if_pos ⟨neg_one_le_sin theta, sin_le_one theta⟩]
    exact congrArg some (arcsin_sin (le_of_lt ht1) (le_of_lt ht2))
  · rw [entry_psi_num psi theta phi, entry_psi_den psi theta phi,
      mul_comm (cos theta) (sin psi), mul_comm (cos theta) (cos psi)]
    exact arctan2_sin_cos_mul psi (cos theta) hp1 hp2 hct

/-- Witness for C1 at the concrete triple `(0, 0, 0)`. -/
theorem euler_roundtrip_witness :
    quaternionToEulerAngles (setQuaternionEulerAngles 0 0 0) = (0, some 0, 0) := by
  have h : |(0 : ℝ)| < π / 2 := by
    rw [abs_zero]
    exact pi_div_two_pos
  exact euler_roundtrip 0 0 0 h h h

end Quaternions

namespace Quaternions

open Real

/-- The concrete rotation the worked example of the spec exercises: a pure
90-degree roll applied to the y-axis vector.  The sandwich the source
computes is `qConj * v * q`, which sends `(0, 1, 0)` to `(0, 0, -1)`. -/
lemma rotate_roll90 :
    rotateVectorWithQuaternion { x := 0, y := 1, z := 0 } 0 0 (π / 2)
      = { x := 0, y := 0, z := -1 } := by
  have h2 : Real.sqrt 2 ^ 2 = 2 := Real.sq_sqrt (by norm_num)
  simp only [rotateVectorWithQuaternion, setQuaternionEulerAngles,
    getQuaternionComplexConjugate, multiplyQuaternions]
  rw [show (0 : ℝ) / 2 = 0 from by norm_num, show π / 2 / 2 = π / 4 from by ring,
    Real.cos_zero, Real.sin_zero, Real.cos_pi_div_four, Real.sin_pi_div_four]
  ext
  · show _ = (0 : ℝ)
    ring
  · show _ = (0 : ℝ)
    ring
  · show _ = (-1 : ℝ)
    ring_nf
    nlinarith [h2]

end Quaternions

namespace Quaternions

open Real

/-- C2 counterexample: contrary to the claim, `rotateVectorWithQuaternion`
applied to `(0, 1, 0)` with `psi = 0`, `theta = 0`, `phi = pi/2` does NOT
return `(0, 0, 1)`: its z-component is `-1`. -/
theorem rotate_roll90_ne_claimed :
    rotateVectorWithQuaternion { x := 0, y := 1, z := 0 } 0 0 (π / 2)
      ≠ { x := 0, y := 0, z := 1 } := by
  rw [rotate_roll90]
  intro h
  have hz := congrArg Vec3.z h
  norm_num at hz

/-- C2 amended: `rotateVectorWithQuaternion((0,1,0), 0, 0, pi/2)` returns
`(0, 0, -1)`: the source computes the conjugated sandwich `q* v q`, which
rotates the y-axis vector toward the NEGATIVE z-axis (the inverse / passive
rotation of an active right-hand roll about x). -/
theorem rotate_roll90_eq_neg_z :
    rotateVectorWithQuaternion { x := 0, y := 1, z := 0 } 0 0 (π / 2)
      = { x := 0, y := 0, z := -1 } :=
  rotate_roll90

end Quaternions

namespace Quaternions

open Real

/-- C3 counterexample: at the non-unit quaternion `(1, 0, 1, 0)` the arcsine
argument is `2`, outside `[-1, 1]`, yet `quaternionToEulerAngles` does not
fail: `np.arcsin` silently returns NaN (modeled `none`), so the caller gets
exactly the silent NaN angle the claim says it must not get. -/
theorem quaternionToEuler_silent_nan :
    asinArg { q0 := 1, q1 := 0, q2 := 1, q3 := 0 } = 2 ∧
      (quaternionToEulerAngles { q0 := 1, q1 := 0, q2 := 1, q3 := 0 }).2.1 = none := by
  constructor
  · norm_num [asinArg]
  · norm_num [quaternionToEulerAngles, npArcsin, asinArg]

/-- C3 amended: `quaternionToEulerAngles` yields a NaN pitch angle (modeled
`none`) exactly when the arcsine argument `-(2*q1*q3 - 2*q0*q2)` falls
outside `[-1, 1]`; no exception is raised, and the yaw and roll components
are still returned as ordinary `arctan2` values. -/
theorem quaternionToEuler_nan_iff (q : Quat) :
    (quaternionToEulerAngles q).2.1 = none ↔
      asinArg q < -1 ∨ 1 < asinArg q := by
  simp only [quaternionToEulerAngles, npArcsin]
  by_cases h : -1 ≤ asinArg q ∧ asinArg q ≤ 1
  · rw [if_pos h]
    constructor
    · intro hc
      exact absurd hc (Option.some_ne_none _)
    · rintro (h1 | h2)
      · linarith [h.1]
      · linarith [h.2]
  · rw [if_neg h]
    constructor
    · intro _
      by_contra hno
      push_neg at hno
      exact h hno
    · intro _
      rfl

end Quaternions

namespace Quaternions

open Real

/-- The product the source computes agrees with the claimed 4x4 matrix
formula `P(p) . q`. -/
lemma multiply_eq_leftMatrixSpec (q p : Quat) :
    multiplyQuaternions q p = leftMatrixApplySpec q p := by
  ext <;> simp only [multiplyQuaternions, leftMatrixApplySpec] <;> ring

/-- The product the source computes is the Hamilton product of its FIRST
argument by its SECOND: `multiplyQuaternions q p = q o p`. -/
lemma multiply_eq_hamilton_qp (q p : Quat) :
    multiplyQuaternions q p = hamiltonProductSpec q p := by
  ext <;> simp only [multiplyQuaternions, hamiltonProductSpec] <;> ring

/-- C4 counterexample: at `q = (0,0,0,1)`, `p = (0,0,1,0)` the product the
source computes is not the Hamilton product `p o q` the claim spells out
(their `q1` components are `-1` and `1`). -/
theorem multiply_ne_hamilton_pq :
    multiplyQuaternions { q0 := 0, q1 := 0, q2 := 0, q3 := 1 }
        { q0 := 0, q1 := 0, q2 := 1, q3 := 0 }
      ≠ hamiltonProductSpec { q0 := 0, q1 := 0, q2 := 1, q3 := 0 }
        { q0 := 0, q1 := 0, q2 := 0, q3 := 1 } := by
  intro h
  have h1 := congrArg Quat.q1 h
  norm_num [multiplyQuaternions, hamiltonProductSpec] at h1

/-- C4 amended: for every pair of quaternions, `multiplyQuaternions(q, p)`
equals the 4x4 matrix `P(p)` applied to `q`, and this result is the Hamilton
product `q o p` (scalar part `p0*q0 - p1*q1 - p2*q2 - p3*q3`, vector part
`q0*(p1,p2,p3) + p0*(q1,q2,q3) + (q1,q2,q3) x (p1,p2,p3)`) — the operands
of the Hamilton product in the order they are passed, not reversed. -/
theorem multiply_matrix_and_hamilton (q p : Quat) :
    multiplyQuaternions q p = leftMatrixApplySpec q p ∧
      multiplyQuaternions q p = hamiltonProductSpec q p :=
  ⟨multiply_eq_leftMatrixSpec q p, multiply_eq_hamilton_qp q p⟩

/-- C5: the quaternion returned by `setQuaternionEulerAngles` is unit-norm
for every real inputs. -/
theorem setQuaternion_unit_norm (psi theta phi : ℝ) :
    quatNormSq (setQuaternionEulerAngles psi theta phi) = 1 :=
  quatNormSq_set psi theta phi

end Quaternions

namespace Quaternions

open Real

/-- Unfolding of `rotateVectorWithQuaternion` into the conjugated sandwich
it computes. -/
lemma rotate_eq_sandwich (v : Vec3) (psi theta phi : ℝ) :
    rotateVectorWithQuaternion v psi theta phi =
      { x := (multiplyQuaternions (multiplyQuaternions
          (getQuaternionComplexConjugate (setQuaternionEulerAngles psi theta phi))
          { q0 := 0, q1 := v.x, q2 := v.y, q3 := v.z })
          (setQuaternionEulerAngles psi theta phi)).q1
        y := (multiplyQuaternions (multiplyQuaternions
          (getQuaternionComplexConjugate (setQuaternionEulerAngles psi theta phi))
          { q0 := 0, q1 := v.x, q2 := v.y, q3 := v.z })
          (setQuaternionEulerAngles psi theta phi)).q2
        z := (multiplyQuaternions (multiplyQuaternions
          (getQuaternionComplexConjugate (setQuaternionEulerAngles psi theta phi))
          { q0 := 0, q1 := v.x, q2 := v.y, q3 := v.z })
          (setQuaternionEulerAngles psi theta phi)).q3 } :=
  rfl

/-- For a unit quaternion the vector part of the sandwich
`qConj * vPure * q` has the same squared norm as `v` (its scalar part is
identically zero and quaternion multiplication is norm-multiplicative). -/
lemma vnormSq_sandwich (q : Quat) (v : Vec3) (h : quatNormSq q = 1) :
    vnormSq
      { x := (multiplyQuaternions (multiplyQuaternions
          (getQuaternionComplexConjugate q)
          { q0 := 0, q1 := v.x, q2 := v.y, q3 := v.z }) q).q1,
        y := (multiplyQuaternions (multiplyQuaternions
          (getQuaternionComplexConjugate q)
          { q0 := 0, q1 := v.x, q2 := v.y, q3 := v.z }) q).q2,
        z := (multiplyQuaternions (multiplyQuaternions
          (getQuaternionComplexConjugate q)
          { q0 := 0, q1 := v.x, q2 := v.y, q3 := v.z }) q).q3 }
      = vnormSq v := by
  simp only [quatNormSq] at h
  simp only [vnormSq, multiplyQuaternions, getQuaternionComplexConjugate]
  linear_combination ((q.q0 ^ 2 + q.q1 ^ 2 + q.q2 ^ 2 + q.q3 ^ 2 + 1)
    * (v.x ^ 2 + v.y ^ 2 + v.z ^ 2)) * h

/-- C6: the Euclidean norm of the rotated vector equals the Euclidean norm
of the input vector, for every vector and every Euler angles. -/
theorem rotate_preserves_norm (v : Vec3) (psi theta phi : ℝ) :
    vnorm (rotateVectorWithQuaternion v psi theta phi) = vnorm v := by
  rw [vnorm, vnorm, rotate_eq_sandwich,
    vnormSq_sandwich (setQuaternionEulerAngles psi theta phi) v (quatNormSq_set psi theta phi)]

/-- C7: rotating by the zero Euler angles is the identity: the zero angles
produce the identity quaternion `(1, 0, 0, 0)`. -/
theorem rotate_zero_identity (v : Vec3) :
    rotateVectorWithQuaternion v 0 0 0 = v := by
  simp only [rotateVectorWithQuaternion, setQuaternionEulerAngles,
    getQuaternionComplexConjugate, multiplyQuaternions]
  rw [show (0 : ℝ) / 2 = 0 from by norm_num, Real.cos_zero, Real.sin_zero]
  ext <;> (show _ = _; ring)

end Quaternions

namespace Quaternions

open Real

/-- C8: for every unit-norm quaternion the DCM is orthonormal
(`R * R^t = I`) and has determinant `1`. -/
theorem dcm_orthonormal (q : Quat) (h : quatNormSq q = 1) :
    mat3Mul (quaternionToDCM q) (mat3Transpose (quaternionToDCM q)) = mat3Id ∧
      det3 (quaternionToDCM q) = 1 := by
  simp only [quatNormSq] at h
  constructor
  · refine Mat3.ext ?_ ?_ ?_ ?_ ?_ ?_ ?_ ?_ ?_ <;>
      simp only [mat3Mul, mat3Transpose, quaternionToDCM, mat3Id]
    · linear_combination (4 * (q.q0 ^ 2 + q.q1 ^ 2)) * h
    · linear_combination (4 * q.q1 * q.q2) * h
    · linear_combination (4 * q.q1 * q.q3) * h
    · linear_combination (4 * q.q1 * q.q2) * h
    · linear_combination (4 * (q.q0 ^ 2 + q.q2 ^ 2)) * h
    · linear_combination (4 * q.q2 * q.q3) * h
    · linear_combination (4 * q.q1 * q.q3) * h
    · linear_combination (4 * q.q2 * q.q3) * h
    · linear_combination (4 * (q.q0 ^ 2 + q.q3 ^ 2)) * h
  · simp only [det3, quaternionToDCM]
    linear_combination ((q.q0 ^ 2 + q.q1 ^ 2 + q.q2 ^ 2 + q.q3 ^ 2 - 1) ^ 2
      + (2 * (q.q0 ^ 2 + q.q1 ^ 2 + q.q2 ^ 2 + q.q3 ^ 2) - 1)
        * (4 * q.q0 ^ 2 - (q.q0 ^ 2 + q.q1 ^ 2 + q.q2 ^ 2 + q.q3 ^ 2))
      + (q.q0 ^ 2 + q.q1 ^ 2 + q.q2 ^ 2 + q.q3 ^ 2) ^ 2
      + (q.q0 ^ 2 + q.q1 ^ 2 + q.q2 ^ 2 + q.q3 ^ 2) + 1) * h

/-- Witness for C8 at the concrete unit quaternion `(1, 0, 0, 0)`. -/
theorem dcm_orthonormal_witness :
    mat3Mul (quaternionToDCM { q0 := 1, q1 := 0, q2 := 0, q3 := 0 })
        (mat3Transpose (quaternionToDCM { q0 := 1, q1 := 0, q2 := 0, q3 := 0 })) = mat3Id ∧
      det3 (quaternionToDCM { q0 := 1, q1 := 0, q2 := 0, q3 := 0 }) = 1 :=
  dcm_orthonormal { q0 := 1, q1 := 0, q2 := 0, q3 := 0 } (by norm_num [quatNormSq])

end Quaternions

namespace Quaternions

open Real

/-- For a unit quaternion, applying the DCM to a vector agrees with the
vector part of the sandwich `qConj * vPure * q` the source computes. -/
lemma dcm_apply_eq_sandwich (q : Quat) (v : Vec3) (h : quatNormSq q = 1) :
    mat3ApplyVec (quaternionToDCM q) v =
      { x := (multiplyQuaternions (multiplyQuaternions
          (getQuaternionComplexConjugate q)
          { q0 := 0, q1 := v.x, q2 := v.y, q3 := v.z }) q).q1,
        y := (multiplyQuaternions (multiplyQuaternions
          (getQuaternionComplexConjugate q)
          { q0 := 0, q1 := v.x, q2 := v.y, q3 := v.z }) q).q2,
        z := (multiplyQuaternions (multiplyQuaternions
          (getQuaternionComplexConjugate q)
          { q0 := 0, q1 := v.x, q2 := v.y, q3 := v.z }) q).q3 } := by
  simp only [quatNormSq] at h
  refine Vec3.ext ?_ ?_ ?_ <;>
    simp only [mat3ApplyVec, quaternionToDCM, multiplyQuaternions,
      getQuaternionComplexConjugate]
  · linear_combination v.x * h
  · linear_combination v.y * h
  · linear_combination v.z * h

/-- C9: converting the Euler-angle quaternion to a DCM and applying it to a
vector gives exactly the vector `rotateVectorWithQuaternion` returns: the
two paths implement the same rotation. -/
theorem dcm_apply_eq_rotate (v : Vec3) (psi theta phi : ℝ) :
    mat3ApplyVec (quaternionToDCM (setQuaternionEulerAngles psi theta phi)) v
      = rotateVectorWithQuaternion v psi theta phi := by
  rw [rotate_eq_sandwich]
  exact dcm_apply_eq_sandwich (setQuaternionEulerAngles psi theta phi) v
    (quatNormSq_set psi theta phi)

end Quaternions
